import Mathlib

/-!
Shallow embedding of the photometry pipeline (Photometry_Project_WCS.py).

Images are modelled as 1-D lists of exact rationals (a pixel grid flattened
into a single row; the shape of an image is its length).  The only operation
of the pipeline whose result can leave the rationals is the final flat-field
division, which is modelled with an IEEE-style value type `Pix` carrying
signed infinities and NaN: subtraction and median of finite data are exact,
and the zero-divisor classification (a/0 = ±inf, 0/0 = NaN) agrees with the
numpy floating-point semantics the source relies on.

Elementwise numpy binary operations on 1-D arrays broadcast a length-1
operand across the other operand and reject any other length mismatch;
`bcast2` models exactly that rule.
-/

namespace Photometry

/-- An IEEE-style pixel value: an exact rational, a signed infinity, or NaN.
Rationals carry no signed zero, so the sign of a zero divisor is taken
positive — the only case the pipeline exercises (`x / 0.0`). -/
inductive Pix where
  | num (q : ℚ)
  | pinf
  | ninf
  | nan
deriving DecidableEq, Repr

/-- IEEE-style division on pixel values, as numpy performs it:
finite/0 gives a signed infinity (NaN for 0/0), finite/inf gives 0,
inf/finite keeps the infinity, inf/inf gives NaN, NaN propagates. -/
def pdiv : Pix → Pix → Pix
  | Pix.nan, _ => Pix.nan
  | _, Pix.nan => Pix.nan
  | Pix.num a, Pix.num b =>
      if b = 0 then
        (if a = 0 then Pix.nan else if 0 < a then Pix.pinf else Pix.ninf)
      else Pix.num (a / b)
  | Pix.num _, Pix.pinf => Pix.num 0
  | Pix.num _, Pix.ninf => Pix.num 0
  | Pix.pinf, Pix.num b => if 0 ≤ b then Pix.pinf else Pix.ninf
  | Pix.ninf, Pix.num b => if 0 ≤ b then Pix.ninf else Pix.pinf
  | Pix.pinf, Pix.pinf => Pix.nan
  | Pix.pinf, Pix.ninf => Pix.nan
  | Pix.ninf, Pix.pinf => Pix.nan
  | Pix.ninf, Pix.ninf => Pix.nan

/-- numpy's 1-D broadcasting rule for an elementwise binary operation:
equal lengths combine index-wise; otherwise a length-1 operand is broadcast
across the other operand; any other mismatch is an error (`none`). -/
def bcast2 (f : α → β → γ) (a : List α) (b : List β) : Option (List γ) :=
  if a.length = b.length then some (List.zipWith f a b)
  else
    match a, b with
    | _, [b0] => some (a.map (fun x => f x b0))
    | [a0], _ => some (b.map (fun y => f a0 y))
    | _, _ => none

/-- Per-pixel arithmetic mean, as `Combiner.average_combine` computes it:
sum of the values at one pixel position divided by the number of images. -/
def np_mean (xs : List ℚ) : ℚ := xs.sum / (xs.length : ℚ)

/-- numpy's median of a non-empty list: sort ascending; odd count takes the
middle element, even count averages the two middle elements. -/
def medianQ (xs : List ℚ) : ℚ :=
  let s := List.insertionSort (fun a b => a ≤ b) xs
  if xs.length % 2 = 1 then s.getD (xs.length / 2) 0
  else (s.getD (xs.length / 2 - 1) 0 + s.getD (xs.length / 2) 0) / 2

/-- `np.median` including the empty case, where numpy returns NaN. -/
def np_median (xs : List ℚ) : Pix :=
  if xs.isEmpty then Pix.nan else Pix.num (medianQ xs)

/-- The shape check `ccdproc.Combiner` performs on construction: every image
must have the same shape as the first. -/
def sameShapeB (stack : List (List ℚ)) : Bool :=
  stack.all (fun im => im.length == (stack.headD []).length)

/-- Apply a per-pixel reduction across an image stack: for each pixel
position of the (common) shape, reduce the list of values the stack holds at
that position. -/
def pixelwise (f : List ℚ → ℚ) (stack : List (List ℚ)) : List ℚ :=
  (List.range (stack.headD []).length).map
    (fun i => f (stack.map (fun im => im.getD i 0)))

/-- The per-file preprocessing of `load_and_combine` (lines 32-36): when a
dark frame is given it is subtracted from the loaded image (astropy/numpy
arithmetic, hence 1-D broadcasting); otherwise the image passes through. -/
def subtractDark (dark_frame : Option (List ℚ)) (img : List ℚ) : Option (List ℚ) :=
  match dark_frame with
  | none => some img
  | some d => bcast2 (fun a b => a - b) img d

/-- The accumulation loop of `load_and_combine` (lines 30-36): read each
file in order, subtract the optional dark frame, and collect the results;
a failing subtraction aborts the whole loop. -/
def loadCcdList (dark_frame : Option (List ℚ)) : List (List ℚ) → Option (List (List ℚ))
  | [] => some []
  | f :: rest =>
    match subtractDark dark_frame f with
    | none => none
    | some ccd =>
      match loadCcdList dark_frame rest with
      | none => none
      | some ccds => some (ccd :: ccds)

/-- `load_and_combine` (lines 29-44): load each file (here: the pixel data
itself), subtract the optional dark frame, hand the list to
`ccdproc.Combiner` — which errors on an empty list and on images whose
shapes differ — and combine per pixel with the mean for method `"average"`
or the median for method `"median"`; any other method leaves the result
unbound and the function errors. -/
def load_and_combine (file_list : List (List ℚ)) (combine_method : String)
    (dark_frame : Option (List ℚ)) : Option (List ℚ) :=
  match loadCcdList dark_frame file_list with
  | none => none
  | some ccd_list =>
    if ccd_list.isEmpty then none
    else if sameShapeB ccd_list then
      (if combine_method = "average" then some (pixelwise np_mean ccd_list)
       else if combine_method = "median" then some (pixelwise medianQ ccd_list)
       else none)
    else none

/-- Line 109: `combined_flat / np.median(combined_flat)` — every flat pixel
divided by the scalar median of the flat. -/
def combined_flat_normalized (flat : List ℚ) : List Pix :=
  flat.map (fun a => pdiv (Pix.num a) (np_median flat))

/-- Lines 109-111: normalize the flat by its median, subtract the dark from
the raw frame (numpy broadcasting), divide the dark-subtracted frame by the
normalized flat (numpy broadcasting, IEEE division). -/
def corrected_image (target_data dark flat : List ℚ) : Option (List Pix) :=
  match bcast2 (fun a b => a - b) target_data dark with
  | none => none
  | some target_minus_dark =>
      bcast2 (fun d nf => pdiv (Pix.num d) nf) target_minus_dark
        (combined_flat_normalized flat)

/-- One JSON status response of the plate-solving service, restricted to the
two fields the poll loop reads: the `jobs` array (empty when the key is
absent) and the optional `status` string. -/
structure StatusResponse where
  jobs : List ℕ
  status : Option String
deriving DecidableEq, Repr

/-- An observable event of the poll loop: issuing one status request, or
sleeping for the fixed 30-second interval. -/
inductive PollEvent where
  | request
  | sleep
deriving DecidableEq, Repr

/-- How the poll loop exits: returning the first assigned job id, or raising
the error for a declared failure status (the spec's `ExternalServiceError`;
line 81 raises it as a generic exception). -/
inductive PollExit where
  | jobId (j : ℕ)
  | externalServiceError
deriving DecidableEq, Repr

/-- `check_submission_status` (lines 72-82), run against a finite prefix of
the service's response sequence.  Each loop iteration issues one status
request; a non-empty `jobs` array returns its first element, a `"failure"`
status raises, and anything else sleeps 30 seconds and polls again.  The
result pairs the exit with the ordered trace of requests and sleeps;
`none` means the prefix was exhausted with the loop still running. -/
def check_submission_status : List StatusResponse → Option (PollExit × List PollEvent)
  | [] => none
  | r :: rest =>
    if r.jobs ≠ [] then some (PollExit.jobId (r.jobs.headD 0), [PollEvent.request])
    else if r.status = some "failure" then
      some (PollExit.externalServiceError, [PollEvent.request])
    else
      match check_submission_status rest with
      | none => none
      | some (e, tr) => some (e, PollEvent.request :: PollEvent.sleep :: tr)

/-- The poll loop driven by an infinite stream of service responses, observed
after `n` responses: `none` while the loop is still running. -/
def pollFuel (resp : ℕ → StatusResponse) (n : ℕ) : Option (PollExit × List PollEvent) :=
  check_submission_status ((List.range n).map resp)

/-- A service that stalls forever: every status response is still pending
(no job assigned, no failure declared). -/
def pendingStream : ℕ → StatusResponse := fun _ => ⟨[], some "solving"⟩

/-- The observable artefacts of one main-flow run (lines 101-116): the pixel
data of the file written to `processed_image.fits` and submitted to the
plate solver, and the corrected image of lines 109-111. -/
structure PipelineRun where
  submittedData : List ℚ
  corrected : List Pix
deriving DecidableEq, Repr

/-- The main flow, lines 101-116: combine the darks with `"median"`, combine
the flats with `"median"` subtracting the combined dark, load the target
frame, compute the corrected image — and then write `target_fits` (the FITS
object opened from the raw target file at line 105, never modified; line 106
copies its data with `.astype(float)` before the corrections) to
`processed_image.fits` (line 115) and submit that file.  The submitted pixel
data is therefore the raw target data. -/
def runPipeline (target_data : List ℚ) (dark_frame_paths flat_field_paths : List (List ℚ)) :
    Option PipelineRun :=
  match load_and_combine dark_frame_paths "median" none with
  | none => none
  | some combined_dark =>
    match load_and_combine flat_field_paths "median" (some combined_dark) with
    | none => none
    | some combined_flat =>
      match corrected_image target_data combined_dark combined_flat with
      | none => none
      | some corr => some ⟨target_data, corr⟩

/-- The WCS the source constructs (lines 121-124): reference sky position
`crval`, per-pixel scale `cdelt` (arcsec/pixel divided by 3600), tangent-
plane projection; `crpix` is never set and keeps astropy's default 0. -/
structure Wcs where
  crvalRa : ℝ
  crvalDec : ℝ
  cdeltRa : ℝ
  cdeltDec : ℝ
  crpixX : ℝ
  crpixY : ℝ

/-- Lines 121-124: `WCS(naxis=2)` with `crval = [ra, dec]`,
`cdelt = [pixscale/3600]*2`, `ctype = TAN`, default `crpix = [0, 0]`. -/
noncomputable def mkWcs (ra dec pixscale : ℝ) : Wcs :=
  ⟨ra, dec, pixscale / 3600, pixscale / 3600, 0, 0⟩

/-- Degrees to radians. -/
noncomputable def deg2rad (d : ℝ) : ℝ := d * Real.pi / 180

/-- Radians to degrees. -/
noncomputable def rad2deg (r : ℝ) : ℝ := r * 180 / Real.pi

/-- Two-argument arctangent, the standard piecewise definition. -/
noncomputable def atan2 (y x : ℝ) : ℝ :=
  if 0 < x then Real.arctan (y / x)
  else if x < 0 then
    (if 0 ≤ y then Real.arctan (y / x) + Real.pi else Real.arctan (y / x) - Real.pi)
  else
    (if 0 < y then Real.pi / 2 else if y < 0 then -(Real.pi / 2) else 0)

/-- Modelled from the spec: the inverse gnomonic (TAN) deprojection the
astropy WCS machinery applies — the projection code itself is external
library code, not part of the repository source.  Inputs: reference sky
position `(ra0, dec0)` and intermediate world offsets `(xi, eta)`, all in
radians; output: sky position in radians. -/
noncomputable def tanDeproject (ra0 dec0 xi eta : ℝ) : ℝ × ℝ :=
  (ra0 + atan2 xi (Real.cos dec0 - eta * Real.sin dec0),
   Real.arcsin ((Real.sin dec0 + eta * Real.cos dec0) /
     Real.sqrt (1 + xi ^ 2 + eta ^ 2)))

/-- Modelled from the spec: `wcs.all_pix2world([[px, py]], origin)` for the
TAN WCS of lines 121-124.  A pixel position in the given origin convention
is shifted to the FITS 1-based convention, offset from the reference pixel
`crpix`, scaled by `cdelt` to intermediate world degrees, deprojected, and
returned in degrees. -/
noncomputable def all_pix2world (w : Wcs) (origin : ℝ) (px py : ℝ) : ℝ × ℝ :=
  let xdeg := (px + (1 - origin) - w.crpixX) * w.cdeltRa
  let ydeg := (py + (1 - origin) - w.crpixY) * w.cdeltDec
  let s := tanDeproject (deg2rad w.crvalRa) (deg2rad w.crvalDec)
    (deg2rad xdeg) (deg2rad ydeg)
  (rad2deg s.1, rad2deg s.2)

/-- A detected source: pixel-space centroid and peak value (the fields of a
`DAOStarFinder` row that the downstream stages read). -/
structure SourceCandidate where
  xcentroid : ℚ
  ycentroid : ℚ
  peak : ℚ
deriving DecidableEq, Repr

/-- numpy's population variance of a list of pixel values (`np.std` squared). -/
def npVariance (xs : List ℚ) : ℚ :=
  np_mean (xs.map (fun x => (x - np_mean xs) ^ 2))

/-- `peak > thresholdSigma * std` expressed exactly over the rationals:
for a nonnegative threshold factor and variance, `peak` exceeds
`thresholdSigma * sqrt variance` iff `peak` is positive and its square
exceeds `thresholdSigma ^ 2 * variance`. -/
def exceedsThreshold (peak thresholdSigma var : ℚ) : Bool :=
  decide (0 < peak) && decide (thresholdSigma ^ 2 * var < peak ^ 2)

/-- The candidate peak positions of a 1-D image: indices whose value
strictly exceeds both neighbours (boundary indices never qualify). -/
def localMaxima (image : List ℚ) : List ℕ :=
  (List.range image.length).filter
    (fun i => decide (0 < i) && decide (i + 1 < image.length) &&
      decide (image.getD (i - 1) 0 < image.getD i 0) &&
      decide (image.getD (i + 1) 0 < image.getD i 0))

/-- Modelled from the spec: the `DAOStarFinder` detection step (line 128-129)
is external library code, not part of the repository source.  Per the spec,
it computes a noise estimate (the standard deviation of the pixel values),
keeps the local maxima whose peak exceeds `thresholdSigma * noise` and whose
profile is consistent with a point-spread function of width `fwhm` — the
profile test is kept abstract as the predicate `profileOK` — and returns the
qualifying candidates, an empty sequence when none qualify. -/
def detect (image : List ℚ) (thresholdSigma : ℚ) (profileOK : ℕ → Bool) :
    List SourceCandidate :=
  ((localMaxima image).filter
      (fun (i : ℕ) => exceedsThreshold (image.getD i 0) thresholdSigma (npVariance image) &&
        profileOK i)).map
    (fun (i : ℕ) => ⟨(i : ℚ), 0, image.getD i 0⟩)

/-- Line 133: the (x, y) centroid pairs of the detected sources. -/
def positionsOf (stars : List SourceCandidate) : List (ℚ × ℚ) :=
  stars.map (fun s => (s.xcentroid, s.ycentroid))

/-- Modelled from the spec: `aperture_photometry` with `CircularAperture`
(lines 134-135) is external library code.  Per the spec it produces one
measurement per input position: the sum of the image pixels within the
disk of radius `r` around the centroid (the 1-D image is read as the row
`y = 0`). -/
def aperture_photometry (image : List ℚ) (positions : List (ℚ × ℚ)) (r : ℚ) :
    List ℚ :=
  positions.map (fun p =>
    (((List.range image.length).filter
        (fun (i : ℕ) => decide (((i : ℚ) - p.1) ^ 2 + p.2 ^ 2 ≤ r ^ 2))).map
      (fun (i : ℕ) => image.getD i 0)).sum)

/-- Line 138: `wcs.all_pix2world(positions, 0)` — every detected pixel
position converted to sky coordinates with the 0-based origin convention. -/
noncomputable def sky_coords (w : Wcs) (positions : List (ℚ × ℚ)) : List (ℝ × ℝ) :=
  positions.map (fun p => all_pix2world w 0 (p.1 : ℝ) (p.2 : ℝ))

/-- The poll-loop trace consisting of `k` still-pending iterations
(request then sleep) followed by one final request: its last event is a
request, with no sleep after it and no request beyond it. -/
def pollTrace : ℕ → List PollEvent
  | 0 => [PollEvent.request]
  | k + 1 => PollEvent.request :: PollEvent.sleep :: pollTrace k

end Photometry

namespace Photometry

theorem getD_map_of_lt (f : α → β) (l : List α) (i : ℕ) (h : i < l.length)
    (d : β) (d' : α) : (l.map f).getD i d = f (l.getD i d') := by
  rw [List.getD_eq_getElem?_getD, List.getD_eq_getElem?_getD,
    List.getElem?_map, List.getElem?_eq_getElem h]
  simp

theorem getD_range_map_of_lt (g : ℕ → β) (n i : ℕ) (h : i < n) (d : β) :
    ((List.range n).map g).getD i d = g i := by
  rw [getD_map_of_lt g (List.range n) i (by simpa using h) d 0,
    List.getD_eq_getElem?_getD, List.getElem?_range h]
  rfl

theorem bcast2_eq_zipWith (f : α → β → γ) (a : List α) (b : List β)
    (h : a.length = b.length) : bcast2 f a b = some (List.zipWith f a b) := by
  simp [bcast2, h]

theorem bcast2_eq_none (f : α → β → γ) (a : List α) (b : List β)
    (h : a.length ≠ b.length) (ha : a.length ≠ 1) (hb : b.length ≠ 1) :
    bcast2 f a b = none := by
  rcases a with _ | ⟨a0, _ | ⟨a1, as⟩⟩ <;> rcases b with _ | ⟨b0, _ | ⟨b1, bs⟩⟩ <;>
    simp_all [bcast2]

theorem corrected_image_eq (target dark flat : List ℚ)
    (h1 : target.length = dark.length) (h2 : target.length = flat.length) :
    corrected_image target dark flat =
      some ((List.range target.length).map (fun i =>
        pdiv (Pix.num (target.getD i 0 - dark.getD i 0))
          (pdiv (Pix.num (flat.getD i 0)) (np_median flat)))) := by
  rw [corrected_image, bcast2_eq_zipWith _ _ _ h1]
  dsimp only
  have hlen : (List.zipWith (fun a b => a - b) target dark).length =
      (combined_flat_normalized flat).length := by
    simp [combined_flat_normalized, List.length_zipWith, h1.symm, ← h2]
  rw [bcast2_eq_zipWith _ _ _ hlen]
  congr 1
  apply List.ext_getElem
  · simp [combined_flat_normalized, List.length_zipWith, h1.symm, ← h2]
  · intro i hi hi2
    have hit : i < target.length := by
      simpa [combined_flat_normalized, List.length_zipWith, h1.symm, ← h2] using hi
    have hid : i < dark.length := h1 ▸ hit
    have hif : i < flat.length := h2 ▸ hit
    simp only [List.getElem_zipWith, List.getElem_map, List.getElem_range,
      combined_flat_normalized]
    rw [List.getD_eq_getElem _ _ hit, List.getD_eq_getElem _ _ hid,
      List.getD_eq_getElem _ _ hif]

/-- C1: for raw, dark and flat frames of equal shape, the calibration step
returns exactly `(raw - darkMaster) / (flatMaster / median flatMaster)`:
the flat is normalized pixel-wise by its median, the dark is subtracted from
the raw element-wise, and the result is divided by the normalized flat
element-wise. -/
theorem calibration_formula (raw darkMaster flatMaster : List ℚ)
    (h1 : raw.length = darkMaster.length) (h2 : raw.length = flatMaster.length) :
    corrected_image raw darkMaster flatMaster =
      some ((List.range raw.length).map (fun i =>
        pdiv (Pix.num (raw.getD i 0 - darkMaster.getD i 0))
          (pdiv (Pix.num (flatMaster.getD i 0)) (np_median flatMaster)))) :=
  corrected_image_eq raw darkMaster flatMaster h1 h2

/-- C1 witness: `apply(raw=[50], dark=[10], flat=[5])` yields `[40]`. -/
theorem calibration_formula_witness :
    corrected_image [50] [10] [5] = some [Pix.num 40] := by
  have h := calibration_formula [50] [10] [5] rfl rfl
  rw [h]
  norm_num [List.range_succ, np_median, medianQ, List.insertionSort,
    List.orderedInsert, pdiv]

theorem loadCcdList_none (l : List (List ℚ)) :
    loadCcdList none l = some l := by
  induction l with
  | nil => rfl
  | cons hd tl ih => rw [loadCcdList, ih]; rfl

theorem loadCcdList_some (ref : List ℚ) (l : List (List ℚ))
    (h : ∀ im ∈ l, im.length = ref.length) :
    loadCcdList (some ref) l =
      some (l.map (fun im => List.zipWith (fun a b => a - b) im ref)) := by
  induction l with
  | nil => rfl
  | cons hd tl ih =>
    have hhd : hd.length = ref.length := h hd (List.mem_cons_self hd tl)
    rw [loadCcdList,
      show subtractDark (some ref) hd =
          some (List.zipWith (fun a b => a - b) hd ref) from
        bcast2_eq_zipWith _ _ _ hhd,
      ih (fun im him => h im (List.mem_cons_of_mem hd him))]
    rfl

theorem sameShapeB_of_uniform (stack : List (List ℚ)) (n : ℕ)
    (h : ∀ im ∈ stack, im.length = n) : sameShapeB stack = true := by
  cases stack with
  | nil => rfl
  | cons hd tl =>
    have hh : hd.length = n := h hd (List.mem_cons_self hd tl)
    simp only [sameShapeB, List.all_eq_true, List.headD_cons]
    intro im him
    rw [Nat.beq_eq_true_eq, h im him, hh]

theorem headD_length_of_uniform (stack : List (List ℚ)) (n : ℕ)
    (hne : stack ≠ []) (h : ∀ im ∈ stack, im.length = n) :
    (stack.headD []).length = n := by
  cases stack with
  | nil => exact absurd rfl hne
  | cons hd tl => exact h hd (List.mem_cons_self hd tl)

theorem load_and_combine_average (imgs : List (List ℚ)) (n : ℕ)
    (hne : imgs ≠ []) (hsh : ∀ im ∈ imgs, im.length = n) :
    load_and_combine imgs "average" none =
      some ((List.range n).map (fun i =>
        (imgs.map (fun im => im.getD i 0)).sum / (imgs.length : ℚ))) := by
  rw [load_and_combine, loadCcdList_none]
  dsimp only
  rw [if_neg (by simpa [List.isEmpty_iff] using hne),
    if_pos (sameShapeB_of_uniform imgs n hsh), if_pos rfl]
  unfold pixelwise
  rw [headD_length_of_uniform imgs n hne hsh]
  simp [np_mean]

theorem load_and_combine_median (imgs : List (List ℚ)) (n : ℕ)
    (hne : imgs ≠ []) (hsh : ∀ im ∈ imgs, im.length = n) :
    load_and_combine imgs "median" none =
      some ((List.range n).map (fun i =>
        medianQ (imgs.map (fun im => im.getD i 0)))) := by
  rw [load_and_combine, loadCcdList_none]
  dsimp only
  rw [if_neg (by simpa [List.isEmpty_iff] using hne),
    if_pos (sameShapeB_of_uniform imgs n hsh),
    if_neg (by decide : ¬ ("median" = "average")), if_pos rfl]
  unfold pixelwise
  rw [headD_length_of_uniform imgs n hne hsh]

/-- C2: for a non-empty list of same-shape images, combining with method
`"average"` gives the per-pixel arithmetic mean of the stack, combining
with `"median"` gives the per-pixel median, and a given reference frame of
the same shape is subtracted element-wise from every input image before the
combination. -/
theorem combine_semantics (imgs : List (List ℚ)) (n : ℕ)
    (hne : imgs ≠ []) (hsh : ∀ im ∈ imgs, im.length = n) :
    (load_and_combine imgs "average" none =
      some ((List.range n).map (fun i =>
        (imgs.map (fun im => im.getD i 0)).sum / (imgs.length : ℚ)))) ∧
    (load_and_combine imgs "median" none =
      some ((List.range n).map (fun i =>
        medianQ (imgs.map (fun im => im.getD i 0))))) ∧
    (∀ ref : List ℚ, ref.length = n → ∀ m : String,
      load_and_combine imgs m (some ref) =
        load_and_combine
          (imgs.map (fun im => List.zipWith (fun a b => a - b) im ref)) m none) := by
  refine ⟨load_and_combine_average imgs n hne hsh,
    load_and_combine_median imgs n hne hsh, ?_⟩
  intro ref href m
  rw [load_and_combine,
    loadCcdList_some ref imgs (fun im him => (hsh im him).trans href.symm),
    load_and_combine, loadCcdList_none]

/-- C2 witness: combining `[100,100,100]` and `[102,98,100]` gives
`[101,99,100]` under both methods. -/
theorem combine_semantics_witness :
    load_and_combine [[100,100,100],[102,98,100]] "average" none =
        some [101,99,100] ∧
      load_and_combine [[100,100,100],[102,98,100]] "median" none =
        some [101,99,100] := by
  have h := combine_semantics [[100,100,100],[102,98,100]] 3 (by decide)
    (by decide)
  refine ⟨?_, ?_⟩
  · rw [h.1]
    norm_num [List.range_succ]
  · rw [h.2.1]
    norm_num [List.range_succ, medianQ, List.insertionSort, List.orderedInsert]

theorem insertionSort_eq_of_perm (xs ys : List ℚ) (h : xs.Perm ys) :
    List.insertionSort (fun a b => a ≤ b) xs =
      List.insertionSort (fun a b => a ≤ b) ys :=
  List.eq_of_perm_of_sorted
    (((List.perm_insertionSort _ xs).trans h).trans
      (List.perm_insertionSort _ ys).symm)
    (List.sorted_insertionSort _ xs) (List.sorted_insertionSort _ ys)

theorem medianQ_perm (xs ys : List ℚ) (h : xs.Perm ys) :
    medianQ xs = medianQ ys := by
  unfold medianQ
  rw [insertionSort_eq_of_perm xs ys h, h.length_eq]

theorem np_mean_perm (xs ys : List ℚ) (h : xs.Perm ys) :
    np_mean xs = np_mean ys := by
  unfold np_mean
  rw [h.sum_eq, h.length_eq]

/-- C9: combining a non-empty list of same-shape images is invariant under
permutation of the input list, for method `"average"` and `"median"` alike
(and indeed for any method string). -/
theorem combine_perm_invariant (imgs imgs2 : List (List ℚ)) (n : ℕ)
    (hp : imgs.Perm imgs2) (hne : imgs ≠ [])
    (hsh : ∀ im ∈ imgs, im.length = n) (m : String) :
    load_and_combine imgs m none = load_and_combine imgs2 m none := by
  have hne2 : imgs2 ≠ [] := fun h => hne (List.Perm.eq_nil (h ▸ hp))
  have hsh2 : ∀ im ∈ imgs2, im.length = n :=
    fun im him => hsh im (hp.mem_iff.mpr him)
  have hpix : ∀ f : List ℚ → ℚ,
      (∀ xs ys : List ℚ, xs.Perm ys → f xs = f ys) →
      pixelwise f imgs = pixelwise f imgs2 := by
    intro f hf
    unfold pixelwise
    rw [headD_length_of_uniform imgs n hne hsh,
      headD_length_of_uniform imgs2 n hne2 hsh2]
    refine List.map_congr_left (fun i _ => ?_)
    exact hf _ _ (hp.map (fun im => im.getD i 0))
  have e1 : imgs.isEmpty = false := by simpa [List.isEmpty_iff] using hne
  have e2 : imgs2.isEmpty = false := by simpa [List.isEmpty_iff] using hne2
  rw [load_and_combine, loadCcdList_none, load_and_combine, loadCcdList_none]
  dsimp only
  rw [e1, e2, sameShapeB_of_uniform imgs n hsh,
    sameShapeB_of_uniform imgs2 n hsh2,
    hpix np_mean np_mean_perm, hpix medianQ medianQ_perm]

/-- C9 witness: swapping the two inputs leaves the average-combined master
frame unchanged. -/
theorem combine_perm_invariant_witness :
    load_and_combine [[1],[2]] "average" none =
      load_and_combine [[2],[1]] "average" none :=
  combine_perm_invariant [[1],[2]] [[2],[1]] 1 (by decide) (by decide)
    (by decide) "average"

/-- C8 counterexample: the claim "every call to the calibration applier
whose three images differ in shape fails and returns no corrected image" is
false: a raw frame of two pixels with a one-pixel dark and a one-pixel flat
has mismatched shapes, yet numpy broadcasting makes the computation succeed
and return a corrected image. -/
theorem shape_mismatch_counterexample :
    ¬ (∀ target dark flat : List ℚ,
      ¬ (target.length = dark.length ∧ target.length = flat.length) →
      corrected_image target dark flat = none) := by
  intro h
  have hx := h [50, 60] [10] [5] (by norm_num)
  have hy : corrected_image [50, 60] [10] [5] =
      some [Pix.num 40, Pix.num 50] := by
    norm_num [corrected_image, bcast2, combined_flat_normalized, np_median,
      medianQ, List.insertionSort, List.orderedInsert, pdiv]
  rw [hy] at hx
  exact Option.noConfusion hx

/-- C8 amended: combining an empty file list fails, combining images of
non-identical shapes fails, and the calibration applier fails whenever a
shape combination is incompatible under numpy broadcasting — at the
dark-subtraction stage (raw and dark of unequal lengths, neither of length
one) or at the flat-division stage (the dark-subtracted frame and the flat
of unequal lengths, neither of length one) — but a broadcast-compatible
mismatch succeeds, as the counterexample shows. -/
theorem shape_mismatch_amended :
    (∀ (m : String) (d : Option (List ℚ)), load_and_combine [] m d = none) ∧
    (∀ (imgs : List (List ℚ)) (m : String), sameShapeB imgs = false →
      load_and_combine imgs m none = none) ∧
    (∀ target dark flat : List ℚ, target.length ≠ dark.length →
      target.length ≠ 1 → dark.length ≠ 1 →
      corrected_image target dark flat = none) ∧
    (∀ (target dark flat : List ℚ) (tmd : List ℚ),
      bcast2 (fun a b => a - b) target dark = some tmd →
      tmd.length ≠ flat.length → tmd.length ≠ 1 → flat.length ≠ 1 →
      corrected_image target dark flat = none) := by
  refine ⟨fun m d => rfl, ?_, ?_, ?_⟩
  · intro imgs m hs
    rw [load_and_combine, loadCcdList_none]
    dsimp only
    cases he : imgs.isEmpty with
    | true => rw [if_pos rfl]
    | false => simp [hs]
  · intro target dark flat h1 h2 h3
    rw [corrected_image, bcast2_eq_none _ _ _ h1 h2 h3]
  · intro target dark flat tmd htmd hf h1 hfl
    rw [corrected_image, htmd]
    dsimp only
    exact bcast2_eq_none _ _ _
      (by simpa [combined_flat_normalized] using hf) h1
      (by simpa [combined_flat_normalized] using hfl)

/-- C8 amended witness: the empty combine, a mismatched-shape combine, a
raw/dark-incompatible calibration call and a flat-incompatible calibration
call all fail. -/
theorem shape_mismatch_amended_witness :
    load_and_combine [] "average" none = none ∧
      load_and_combine [[1], [2, 3]] "median" none = none ∧
      corrected_image [1, 2] [1, 2, 3] [1, 2] = none ∧
      corrected_image [1, 2] [1, 2] [1, 2, 3] = none :=
  ⟨shape_mismatch_amended.1 "average" none,
    shape_mismatch_amended.2.1 [[1], [2, 3]] "median" (by decide),
    shape_mismatch_amended.2.2.1 [1, 2] [1, 2, 3] [1, 2] (by decide)
      (by decide) (by decide),
    shape_mismatch_amended.2.2.2 [1, 2] [1, 2] [1, 2, 3] [0, 0]
      (by norm_num [bcast2]) (by decide) (by decide) (by decide)⟩

/-- C5 counterexample: the claim that a zero normalized-flat pixel leads to
a masked/placeholder corrected pixel — never a NaN or infinity silently
propagated into the corrected image — is false: with flat `[0,5,5]` the
normalized flat is zero at pixel 0 and the corrected image there is the
propagated IEEE infinity `+inf`. -/
theorem degenerate_division_counterexample :
    ¬ (∀ (target dark flat : List ℚ) (out : List Pix) (i : ℕ),
      corrected_image target dark flat = some out →
      (combined_flat_normalized flat).getD i (Pix.num 1) = Pix.num 0 →
      out.getD i (Pix.num 0) ≠ Pix.pinf ∧ out.getD i (Pix.num 0) ≠ Pix.ninf ∧
        out.getD i (Pix.num 0) ≠ Pix.nan) := by
  intro h
  have himg : corrected_image [50, 50, 50] [10, 10, 10] [0, 5, 5] =
      some [Pix.pinf, Pix.num 40, Pix.num 40] := by
    norm_num [corrected_image, bcast2, combined_flat_normalized, np_median,
      medianQ, List.insertionSort, List.orderedInsert, pdiv]
  have hz : (combined_flat_normalized [0, 5, 5]).getD 0 (Pix.num 1) =
      Pix.num 0 := by
    norm_num [combined_flat_normalized, np_median, medianQ,
      List.insertionSort, List.orderedInsert, pdiv]
  exact (h [50, 50, 50] [10, 10, 10] [0, 5, 5]
    [Pix.pinf, Pix.num 40, Pix.num 40] 0 himg hz).1 rfl

/-- C5 amended: at a pixel where the normalized flat is zero and the
dark-subtracted value is positive, the calibration step (same shapes)
succeeds and silently stores the propagated IEEE infinity in the corrected
image; it performs no placeholder substitution and returns no count of
affected pixels (its only output is the image itself). -/
theorem degenerate_division_amended (target dark flat : List ℚ) (i : ℕ)
    (h1 : target.length = dark.length) (h2 : target.length = flat.length)
    (hi : i < target.length)
    (hz : (combined_flat_normalized flat).getD i (Pix.num 1) = Pix.num 0)
    (hpos : dark.getD i 0 < target.getD i 0) :
    ∃ out, corrected_image target dark flat = some out ∧
      out.getD i (Pix.num 0) = Pix.pinf := by
  refine ⟨_, corrected_image_eq target dark flat h1 h2, ?_⟩
  rw [getD_range_map_of_lt _ _ _ hi]
  have hif : i < flat.length := h2 ▸ hi
  have hz2 : pdiv (Pix.num (flat.getD i 0)) (np_median flat) = Pix.num 0 := by
    rw [combined_flat_normalized,
      getD_map_of_lt _ _ _ hif (Pix.num 1) 0] at hz
    exact hz
  rw [hz2, pdiv]
  have hp : (0 : ℚ) < target.getD i 0 - dark.getD i 0 := by linarith
  rw [if_pos rfl, if_neg (by linarith), if_pos hp]

/-- C5 amended witness: `raw=[50,50,50]`, `dark=[10,10,10]`, `flat=[0,5,5]`
puts `+inf` at pixel 0 of the corrected image. -/
theorem degenerate_division_amended_witness :
    ∃ out, corrected_image [50, 50, 50] [10, 10, 10] [0, 5, 5] = some out ∧
      out.getD 0 (Pix.num 0) = Pix.pinf :=
  degenerate_division_amended [50, 50, 50] [10, 10, 10] [0, 5, 5] 0 rfl rfl
    (by decide)
    (by norm_num [combined_flat_normalized, np_median, medianQ,
      List.insertionSort, List.orderedInsert, pdiv])
    (by decide)

theorem pollTrace_count (k : ℕ) :
    (pollTrace k).count PollEvent.request = k + 1 ∧
    (pollTrace k).count PollEvent.sleep = k := by
  induction k with
  | zero => exact ⟨rfl, rfl⟩
  | succ k ih => simp [pollTrace, List.count_cons, ih.1, ih.2]

/-- C6: as soon as the poll loop receives a response with no assigned job
and status `"failure"` — after any number of still-pending responses — it
raises the external-service error immediately: the event trace ends with the
failing request, with no sleep after it and no further status request,
whatever responses would have followed. -/
theorem failure_raises_immediately (pre : List StatusResponse)
    (r : StatusResponse) (rest : List StatusResponse)
    (hpre : ∀ x ∈ pre, x.jobs = [] ∧ x.status ≠ some "failure")
    (hj : r.jobs = []) (hf : r.status = some "failure") :
    check_submission_status (pre ++ r :: rest) =
      some (PollExit.externalServiceError, pollTrace pre.length) ∧
    (pollTrace pre.length).count PollEvent.request = pre.length + 1 ∧
    (pollTrace pre.length).count PollEvent.sleep = pre.length := by
  refine ⟨?_, pollTrace_count pre.length⟩
  induction pre with
  | nil =>
    rw [List.nil_append, check_submission_status, if_neg (by simp [hj]),
      if_pos hf]
    rfl
  | cons p ps ih =>
    have hp := hpre p (List.mem_cons_self p ps)
    rw [List.cons_append, check_submission_status, if_neg (by simp [hp.1]),
      if_neg hp.2, ih (fun x hx => hpre x (List.mem_cons_of_mem p hx))]
    rfl

/-- C6 witness: one pending response followed by a failure response — the
loop exits with the error right after its second request, before any further
sleep or request. -/
theorem failure_raises_immediately_witness :
    check_submission_status
        [⟨[], some "solving"⟩, ⟨[], some "failure"⟩, ⟨[3], none⟩] =
      some (PollExit.externalServiceError, pollTrace 1) ∧
    (pollTrace 1).count PollEvent.request = 1 + 1 ∧
    (pollTrace 1).count PollEvent.sleep = 1 :=
  failure_raises_immediately [⟨[], some "solving"⟩] ⟨[], some "failure"⟩
    [⟨[3], none⟩] (by decide) rfl rfl

theorem check_none_of_all_pending (l : List StatusResponse)
    (h : ∀ x ∈ l, x.jobs = [] ∧ x.status ≠ some "failure") :
    check_submission_status l = none := by
  induction l with
  | nil => rfl
  | cons hd tl ih =>
    have h1 := h hd (List.mem_cons_self hd tl)
    rw [check_submission_status, if_neg (by simp [h1.1]), if_neg h1.2,
      ih (fun x hx => h x (List.mem_cons_of_mem hd hx))]

theorem check_some_decisive (l : List StatusResponse) :
    ∀ out, check_submission_status l = some out →
      ∃ x ∈ l, x.jobs ≠ [] ∨ x.status = some "failure" := by
  induction l with
  | nil => intro out h; exact Option.noConfusion h
  | cons hd tl ih =>
    intro out h
    by_cases h1 : hd.jobs ≠ []
    · exact ⟨hd, List.mem_cons_self hd tl, Or.inl h1⟩
    · by_cases h2 : hd.status = some "failure"
      · exact ⟨hd, List.mem_cons_self hd tl, Or.inr h2⟩
      · rw [check_submission_status, if_neg h1, if_neg h2] at h
        cases hc : check_submission_status tl with
        | none => rw [hc] at h; exact Option.noConfusion h
        | some o =>
          obtain ⟨x, hx, hxd⟩ := ih o hc
          exact ⟨x, List.mem_cons_of_mem hd hx, hxd⟩

theorem pollFuel_pending (n : ℕ) : pollFuel pendingStream n = none :=
  check_none_of_all_pending _ (by
    intro x hx
    obtain ⟨k, _, rfl⟩ := List.mem_map.mp hx
    exact ⟨rfl, fun hc => absurd (Option.some.inj hc) (by decide)⟩)

/-- C7 counterexample: the claim that the poll loop terminates for every
possible sequence of service responses is false — against a service whose
responses are forever pending, the loop has produced no exit after any
number of polls. -/
theorem poll_termination_counterexample :
    ¬ (∀ resp : ℕ → StatusResponse,
      ∃ n out, pollFuel resp n = some out) := by
  intro h
  obtain ⟨n, out, hn⟩ := h pendingStream
  rw [pollFuel_pending n] at hn
  exact Option.noConfusion hn

/-- C7 amended: the poll loop has no wait budget and no timeout error: it
runs forever against a stalled service (first conjunct), and it exits only
when some response actually assigns a job or declares failure (second
conjunct) — there is no third, time-based exit. -/
theorem poll_no_timeout_amended :
    (∀ n, pollFuel pendingStream n = none) ∧
    (∀ (resp : ℕ → StatusResponse) (n : ℕ)
      (out : PollExit × List PollEvent), pollFuel resp n = some out →
      ∃ k, k < n ∧ ((resp k).jobs ≠ [] ∨ (resp k).status = some "failure")) := by
  refine ⟨pollFuel_pending, ?_⟩
  intro resp n out h
  obtain ⟨x, hx, hdec⟩ := check_some_decisive _ out h
  obtain ⟨k, hk, rfl⟩ := List.mem_map.mp hx
  exact ⟨k, List.mem_range.mp hk, hdec⟩

/-- C7 amended witness: a first response declaring failure makes the loop
exit within one poll, and that exit indeed comes from a decisive response. -/
theorem poll_no_timeout_amended_witness :
    ∃ k, k < 1 ∧
      ((((fun _ => ⟨[], some "failure"⟩) : ℕ → StatusResponse) k).jobs ≠ [] ∨
        (((fun _ => ⟨[], some "failure"⟩) : ℕ → StatusResponse) k).status =
          some "failure") :=
  poll_no_timeout_amended.2 (fun _ => ⟨[], some "failure"⟩) 1
    (PollExit.externalServiceError, [PollEvent.request]) (by decide)

/-- C3: whenever the pipeline main flow completes, the pixel data written to
`processed_image.fits` and submitted to the plate solver is exactly the
originally loaded raw target data — the corrected image computed by the
calibration step has no influence on the submitted file. -/
theorem submitted_equals_raw (target_data : List ℚ)
    (darks flats : List (List ℚ)) (run : PipelineRun)
    (h : runPipeline target_data darks flats = some run) :
    run.submittedData = target_data := by
  rw [runPipeline] at h
  split at h
  · exact Option.noConfusion h
  · split at h
    · exact Option.noConfusion h
    · split at h
      · exact Option.noConfusion h
      · cases Option.some.inj h
        rfl

/-- C3 witness: a full concrete run submits the raw `[50]`, not the
corrected `[40]`. -/
theorem submitted_equals_raw_witness :
    (⟨[50], [Pix.num 40]⟩ : PipelineRun).submittedData = [50] :=
  submitted_equals_raw [50] [[10], [10]] [[15], [15]] ⟨[50], [Pix.num 40]⟩
    (by norm_num [runPipeline, load_and_combine, loadCcdList, subtractDark,
      bcast2, sameShapeB, pixelwise, medianQ, List.insertionSort,
      List.orderedInsert, List.range_succ, corrected_image,
      combined_flat_normalized, np_median, pdiv,
      show ("median" : String) ≠ "average" from by decide])

/-- C4: when no local maximum qualifies as a source — whatever the
threshold factor and profile test — `detect` returns the empty sequence
(it never errors), and the downstream photometry and projection stages
receive the empty position list and return empty tables without failing. -/
theorem detect_empty_safe (image : List ℚ) (thresholdSigma : ℚ)
    (profileOK : ℕ → Bool) (w : Wcs) (r : ℚ)
    (hnone : ∀ i ∈ localMaxima image,
      (exceedsThreshold (image.getD i 0) thresholdSigma (npVariance image) &&
        profileOK i) = false) :
    detect image thresholdSigma profileOK = [] ∧
    aperture_photometry image
      (positionsOf (detect image thresholdSigma profileOK)) r = [] ∧
    sky_coords w (positionsOf (detect image thresholdSigma profileOK)) = [] := by
  have hd : detect image thresholdSigma profileOK = [] := by
    rw [detect, List.filter_eq_nil_iff.mpr ?_]
    · rfl
    · intro i hi
      rw [Bool.not_eq_true]
      exact hnone i hi
  exact ⟨hd, by rw [hd]; rfl, by rw [hd]; rfl⟩

/-- C4 witness: a constant image has no qualifying local maxima; detection
returns the empty list and photometry and projection return empty tables. -/
theorem detect_empty_safe_witness :
    detect [5, 5, 5] 2 (fun _ => true) = [] ∧
    aperture_photometry [5, 5, 5]
      (positionsOf (detect [5, 5, 5] 2 (fun _ => true))) 3 = [] ∧
    sky_coords (mkWcs 0 0 1)
      (positionsOf (detect [5, 5, 5] 2 (fun _ => true))) = [] :=
  detect_empty_safe [5, 5, 5] 2 (fun _ => true) (mkWcs 0 0 1) 3 (by decide)

theorem deg2rad_zero : deg2rad 0 = 0 := by
  simp [deg2rad]

theorem rad2deg_deg2rad (d : ℝ) : rad2deg (deg2rad d) = d := by
  unfold rad2deg deg2rad
  field_simp

theorem deg2rad_mem_Ioo (d : ℝ) (h1 : -90 < d) (h2 : d < 90) :
    deg2rad d ∈ Set.Ioo (-(Real.pi / 2)) (Real.pi / 2) := by
  unfold deg2rad
  constructor
  · nlinarith [Real.pi_pos]
  · nlinarith [Real.pi_pos]

theorem atan2_zero_pos (x : ℝ) (h : 0 < x) : atan2 0 x = 0 := by
  rw [atan2, if_pos h, zero_div, Real.arctan_zero]

/-- C10: for every astrometric solution constructed by the source (reference
sky position, pixel scale, TAN projection, default reference pixel), the
projector applied — with the source's 0-based origin convention — to the
pixel position of the solution's reference pixel returns exactly the
solution's reference sky coordinate.  (Stated for reference declinations
strictly between the poles, where the tangent plane is defined.) -/
theorem project_reference_pixel (ra dec pixscale : ℝ)
    (h1 : -90 < dec) (h2 : dec < 90) :
    all_pix2world (mkWcs ra dec pixscale) 0
      ((mkWcs ra dec pixscale).crpixX - 1)
      ((mkWcs ra dec pixscale).crpixY - 1) = (ra, dec) := by
  have hmem := deg2rad_mem_Ioo dec h1 h2
  have hcos : 0 < Real.cos (deg2rad dec) := Real.cos_pos_of_mem_Ioo hmem
  unfold all_pix2world mkWcs tanDeproject
  dsimp only
  have hz : (0 - 1 + (1 - 0) - 0) * (pixscale / 3600) = 0 := by ring
  rw [hz, deg2rad_zero]
  rw [show Real.cos (deg2rad dec) - 0 * Real.sin (deg2rad dec) =
    Real.cos (deg2rad dec) from by ring]
  rw [atan2_zero_pos _ hcos, add_zero, rad2deg_deg2rad]
  rw [show Real.sin (deg2rad dec) + 0 * Real.cos (deg2rad dec) =
    Real.sin (deg2rad dec) from by ring]
  rw [show (1 : ℝ) + 0 ^ 2 + 0 ^ 2 = 1 from by ring, Real.sqrt_one, div_one]
  rw [Real.arcsin_sin (le_of_lt hmem.1) (le_of_lt hmem.2)]
  rw [rad2deg_deg2rad]

/-- C10 witness: the solution with reference position (30°, 0°) and scale
1 arcsec/pixel projects its reference pixel back to (30°, 0°). -/
theorem project_reference_pixel_witness :
    all_pix2world (mkWcs 30 0 1) 0 ((mkWcs 30 0 1).crpixX - 1)
      ((mkWcs 30 0 1).crpixY - 1) = (30, 0) :=
  project_reference_pixel 30 0 1 (by norm_num) (by norm_num)

end Photometry
